import Mathlib

/-!
Shallow embedding of `join-router.py`: an HTTP request handler subclassing
`SimpleHTTPRequestHandler`, whose `do_GET` matches the request path against
the regex `/join/([A-Z0-9]{6})` with `re.IGNORECASE` and, on a match, sends
a 302 redirect to `/join.html?code=<CODE>` with the captured group
uppercased; otherwise it delegates to the superclass handler.  `do_HEAD`
simply calls `do_GET`.

Modelling notes:
* `self.path` in `http.server` is decoded from the request line with
  ISO-8859-1, so every character of the path has codepoint ≤ 255.  On that
  character universe, Python's `re.IGNORECASE` folding for the class
  `[A-Z0-9]` and for the literal `join` coincides with plain ASCII case
  folding (the exotic foldings `ſ`, `K`, `ı` all lie above U+00FF), and
  `str.upper()` on the captured characters coincides with the ASCII
  transform `Char.toUpper`.  The embedding therefore uses ASCII folding.
* `urllib.parse.urlparse(url).path`, applied to an origin-form request
  target (leading `/`, hence no scheme and no netloc), is the prefix of the
  string before the first `?` or `#`.
* The superclass `SimpleHTTPRequestHandler.do_GET` is library code outside
  this repository; delegation to it is represented symbolically by the
  `superGET` constructor carrying the unchanged `self.path`.
-/

/-- One character of the class `[A-Z0-9]` matched under `re.IGNORECASE`,
i.e. an ASCII letter (either case) or digit: codepoints 65–90 (`A`–`Z`),
97–122 (`a`–`z`) or 48–57 (`0`–`9`). -/
def isAlnumCI (c : Char) : Bool :=
  decide (65 ≤ c.toNat ∧ c.toNat ≤ 90) ||
  decide (97 ≤ c.toNat ∧ c.toNat ≤ 122) ||
  decide (48 ≤ c.toNat ∧ c.toNat ≤ 57)

/-- Case-insensitive comparison of two characters, as used by
`re.IGNORECASE` on the literal part `/join/` of the pattern (ASCII folding,
faithful on the ISO-8859-1 universe of `self.path`). -/
def eqCI (a b : Char) : Bool := a.toLower == b.toLower

/-- A character of the set `A`–`Z` or `0`–`9` (codepoints 65–90 or 48–57). -/
def isUpperAlnum (c : Char) : Bool :=
  decide (65 ≤ c.toNat ∧ c.toNat ≤ 90) || decide (48 ≤ c.toNat ∧ c.toNat ≤ 57)

/-- `urllib.parse.urlparse(url).path` for an origin-form request target:
the prefix before the first `?` or `#`. -/
def urlparsePath (url : List Char) : List Char :=
  url.takeWhile fun c => !(c == '?' || c == '#')

/-- `re.match(r'/join/([A-Z0-9]{6})', path, re.IGNORECASE)`, returning the
captured group.  `re.match` anchors at the start of the string only: the
pattern must match a prefix of `path`, and any suffix may follow. -/
def joinMatch : List Char → Option (List Char)
  | p0 :: p1 :: p2 :: p3 :: p4 :: p5 :: c1 :: c2 :: c3 :: c4 :: c5 :: c6 :: _ =>
    if p0 == '/' && eqCI p1 'j' && eqCI p2 'o' && eqCI p3 'i' && eqCI p4 'n' && p5 == '/' &&
       isAlnumCI c1 && isAlnumCI c2 && isAlnumCI c3 &&
       isAlnumCI c4 && isAlnumCI c5 && isAlnumCI c6
    then some [c1, c2, c3, c4, c5, c6]
    else none
  | _ => none

/-- The observable response of the overridden `do_GET`: either a 302
redirect carrying a `Location` header value, or delegation to
`SimpleHTTPRequestHandler.do_GET` with the unchanged `self.path`. -/
inductive HResponse where
  | redirect302 (location : List Char)
  | superGET (selfPath : List Char)
  deriving DecidableEq

/-- `JoinRouter.do_GET`: parse the URL, match the join pattern against the
path component; on a match, uppercase the captured share code and send a
302 redirect to `/join.html?code=<CODE>` and return; otherwise serve
normally via the superclass. -/
def do_GET (selfPath : List Char) : HResponse :=
  let parsedPath := urlparsePath selfPath
  match joinMatch parsedPath with
  | some grp =>
    let share_code := grp.map Char.toUpper
    HResponse.redirect302 (("/join.html?code=").toList ++ share_code)
  | none => HResponse.superGET selfPath

/-- `JoinRouter.do_HEAD`: handle HEAD requests the same way as GET. -/
def do_HEAD (selfPath : List Char) : HResponse := do_GET selfPath

/-- Whether `do_GET` takes the redirect branch on a given `self.path`. -/
def matchesJoin (selfPath : List Char) : Bool :=
  (joinMatch (urlparsePath selfPath)).isSome

/-- The path shape asserted by the spec sentence behind claim C2: `/join/`
followed by exactly six alphanumeric characters, optionally followed by a
single trailing slash (the `join` literal and the code matched
case-insensitively). -/
def specJoinShape : List Char → Bool
  | p0 :: p1 :: p2 :: p3 :: p4 :: p5 :: rest =>
    p0 == '/' && eqCI p1 'j' && eqCI p2 'o' && eqCI p3 'i' && eqCI p4 'n' && p5 == '/' &&
    (match rest with
     | [c1, c2, c3, c4, c5, c6] =>
       isAlnumCI c1 && isAlnumCI c2 && isAlnumCI c3 &&
       isAlnumCI c4 && isAlnumCI c5 && isAlnumCI c6
     | [c1, c2, c3, c4, c5, c6, s] =>
       s == '/' && isAlnumCI c1 && isAlnumCI c2 && isAlnumCI c3 &&
       isAlnumCI c4 && isAlnumCI c5 && isAlnumCI c6
     | _ => false)
  | _ => false

/-- The fixed head of every emitted `Location` header value. -/
def locationHead : List Char := ("/join.html?code=").toList

/-- Checks the invariant shape of a `Location` value: the 16-character head
`/join.html?code=` followed by exactly six characters from `A`–`Z`/`0`–`9`. -/
def isValidLocation (loc : List Char) : Bool :=
  (List.take 16 loc == locationHead) &&
  ((List.drop 16 loc).length == 6) &&
  (List.drop 16 loc).all isUpperAlnum

/-- Projection of a response to what claim C9 calls the branch choice and
redirect target: `some loc` for the redirect branch, `none` for the
default-serving branch. -/
def responseClass : HResponse → Option (List Char)
  | HResponse.redirect302 loc => some loc
  | HResponse.superGET _ => none

/-- The observable response of the static-serve variant of the handler. -/
inductive ServeResponse where
  | ok200 (contentType body : List Char)
  | notFound404 (message : List Char)
  | superGET (selfPath : List Char)
  deriving DecidableEq

/-- Modelled from the spec: the static-serve variant (behavior branch B) of
the handler is not present under `src/` (only the redirect variant
`join-router.py` is).  Per spec §4.1/§6/§7: on a join-pattern match, respond
HTTP 200 with content-type `text/html; charset=utf-8` and the contents of
the fixed template file `join/index.html`; if that file is absent, respond
HTTP 404 with a fixed message; non-matching paths delegate to the library
handler.  The filesystem is a function from file name to optional contents. -/
def do_GET_serve (fs : List Char → Option (List Char)) (selfPath : List Char) :
    ServeResponse :=
  match joinMatch (urlparsePath selfPath) with
  | some _ =>
    match fs (("join/index.html").toList) with
    | some body => ServeResponse.ok200 (("text/html; charset=utf-8").toList) body
    | none => ServeResponse.notFound404 (("File not found").toList)
  | none => ServeResponse.superGET selfPath

theorem char_toNat_ofNat {n : Nat} (h : n < 55296) : (Char.ofNat n).toNat = n := by
  have hv : n.isValidChar := Or.inl h
  simp only [Char.ofNat]
  rw [dif_pos hv]
  rfl

theorem char_eq_of_toNat_eq {a b : Char} (h : a.toNat = b.toNat) : a = b := by
  rw [← Char.ofNat_toNat a, ← Char.ofNat_toNat b, h]

theorem toLower_spec (c : Char) :
    c.toLower = if 65 ≤ c.toNat ∧ c.toNat ≤ 90 then Char.ofNat (c.toNat + 32) else c := by
  simp [Char.toLower, ge_iff_le]

theorem toUpper_spec (c : Char) :
    c.toUpper = if 97 ≤ c.toNat ∧ c.toNat ≤ 122 then Char.ofNat (c.toNat - 32) else c := by
  simp [Char.toUpper, ge_iff_le]

theorem toUpper_eq_of_toLower_eq {a b : Char} (h : a.toLower = b.toLower) :
    a.toUpper = b.toUpper := by
  rw [toLower_spec, toLower_spec] at h
  by_cases ha : 65 ≤ a.toNat ∧ a.toNat ≤ 90 <;>
    by_cases hb : 65 ≤ b.toNat ∧ b.toNat ≤ 90
  · rw [if_pos ha, if_pos hb] at h
    have h2 := congrArg Char.toNat h
    rw [char_toNat_ofNat (by omega), char_toNat_ofNat (by omega)] at h2
    rw [char_eq_of_toNat_eq (by omega : a.toNat = b.toNat)]
  · rw [if_pos ha, if_neg hb] at h
    have h2 := congrArg Char.toNat h
    rw [char_toNat_ofNat (by omega)] at h2
    rw [toUpper_spec, toUpper_spec, if_neg (by omega), if_pos (by omega)]
    rw [char_eq_of_toNat_eq (show (Char.ofNat (b.toNat - 32)).toNat = a.toNat by
      rw [char_toNat_ofNat (by omega)]; omega)]
  · rw [if_neg ha, if_pos hb] at h
    have h2 := congrArg Char.toNat h.symm
    rw [char_toNat_ofNat (by omega)] at h2
    rw [toUpper_spec, toUpper_spec, if_pos (by omega), if_neg (by omega)]
    rw [char_eq_of_toNat_eq (show (Char.ofNat (a.toNat - 32)).toNat = b.toNat by
      rw [char_toNat_ofNat (by omega)]; omega)]
  · rw [if_neg ha, if_neg hb] at h
    rw [h]

theorem isAlnumCI_of_toLower_eq {a b : Char} (h : a.toLower = b.toLower)
    (ha : isAlnumCI a = true) : isAlnumCI b = true := by
  rw [toLower_spec, toLower_spec] at h
  simp only [isAlnumCI, Bool.or_eq_true, decide_eq_true_eq] at ha ⊢
  by_cases h65 : 65 ≤ a.toNat ∧ a.toNat ≤ 90 <;>
    by_cases h65b : 65 ≤ b.toNat ∧ b.toNat ≤ 90
  · omega
  · rw [if_pos h65, if_neg h65b] at h
    have h2 := congrArg Char.toNat h
    rw [char_toNat_ofNat (by omega)] at h2
    omega
  · rw [if_neg h65, if_pos h65b] at h
    have h2 := congrArg Char.toNat h.symm
    rw [char_toNat_ofNat (by omega)] at h2
    omega
  · rw [if_neg h65, if_neg h65b] at h
    have h2 := congrArg Char.toNat h
    omega

theorem isUpperAlnum_toUpper {c : Char} (h : isAlnumCI c = true) :
    isUpperAlnum c.toUpper = true := by
  simp only [isAlnumCI, Bool.or_eq_true, decide_eq_true_eq] at h
  simp only [isUpperAlnum, Bool.or_eq_true, decide_eq_true_eq]
  rw [toUpper_spec]
  by_cases hc : 97 ≤ c.toNat ∧ c.toNat ≤ 122
  · rw [if_pos hc]
    rw [char_toNat_ofNat (by omega)]
    omega
  · rw [if_neg hc]
    omega

theorem isAlnumCI_ne_special {c : Char} (h : isAlnumCI c = true) :
    c ≠ '?' ∧ c ≠ '#' := by
  simp only [isAlnumCI, Bool.or_eq_true, decide_eq_true_eq] at h
  constructor <;> rintro rfl <;> simp_all

theorem joinMatch_eq_some_iff {path grp : List Char} :
    joinMatch path = some grp ↔
    ∃ (p1 p2 p3 p4 c1 c2 c3 c4 c5 c6 : Char) (rest : List Char),
      path = '/' :: p1 :: p2 :: p3 :: p4 :: '/' :: c1 :: c2 :: c3 :: c4 :: c5 :: c6 :: rest ∧
      eqCI p1 'j' = true ∧ eqCI p2 'o' = true ∧ eqCI p3 'i' = true ∧ eqCI p4 'n' = true ∧
      isAlnumCI c1 = true ∧ isAlnumCI c2 = true ∧ isAlnumCI c3 = true ∧
      isAlnumCI c4 = true ∧ isAlnumCI c5 = true ∧ isAlnumCI c6 = true ∧
      grp = [c1, c2, c3, c4, c5, c6] := by
  constructor
  · intro h
    rcases path with _ | ⟨p0, _ | ⟨p1, _ | ⟨p2, _ | ⟨p3, _ | ⟨p4, _ | ⟨p5, _ | ⟨c1, _ | ⟨c2,
      _ | ⟨c3, _ | ⟨c4, _ | ⟨c5, _ | ⟨c6, rest⟩⟩⟩⟩⟩⟩⟩⟩⟩⟩⟩⟩ <;>
      simp only [joinMatch] at h
    all_goals try exact Option.noConfusion h
    by_cases hc : (p0 == '/' && eqCI p1 'j' && eqCI p2 'o' && eqCI p3 'i' && eqCI p4 'n' &&
        p5 == '/' && isAlnumCI c1 && isAlnumCI c2 && isAlnumCI c3 &&
        isAlnumCI c4 && isAlnumCI c5 && isAlnumCI c6) = true
    · rw [if_pos hc] at h
      simp only [Bool.and_eq_true, beq_iff_eq] at hc
      obtain ⟨⟨⟨⟨⟨⟨⟨⟨⟨⟨⟨hp0, hj⟩, ho⟩, hi⟩, hn⟩, hp5⟩, h1⟩, h2⟩, h3⟩, h4⟩, h5⟩, h6⟩ := hc
      subst hp0 hp5
      exact ⟨p1, p2, p3, p4, c1, c2, c3, c4, c5, c6, rest, rfl,
        hj, ho, hi, hn, h1, h2, h3, h4, h5, h6, (Option.some_inj.mp h).symm⟩
    · rw [if_neg hc] at h
      exact absurd h (by simp)
  · rintro ⟨p1, p2, p3, p4, c1, c2, c3, c4, c5, c6, rest, rfl,
      hj, ho, hi, hn, h1, h2, h3, h4, h5, h6, rfl⟩
    simp [joinMatch, hj, ho, hi, hn, h1, h2, h3, h4, h5, h6]

theorem urlparsePath_eq_self {l : List Char} (h : ∀ c ∈ l, c ≠ '?' ∧ c ≠ '#') :
    urlparsePath l = l := by
  induction l with
  | nil => rfl
  | cons a t ih =>
    have ha := h a (List.mem_cons_self a t)
    have hpred : (!(a == '?' || a == '#')) = true := by
      simp [ha.1, ha.2]
    simp only [urlparsePath, List.takeWhile_cons, hpred, if_true]
    have := ih (fun c hc => h c (List.mem_cons_of_mem a hc))
    simpa [urlparsePath] using this

theorem urlparsePath_append_query {p q : List Char} (h : ∀ c ∈ p, c ≠ '?' ∧ c ≠ '#') :
    urlparsePath (p ++ '?' :: q) = p := by
  induction p with
  | nil => rfl
  | cons a t ih =>
    have ha := h a (List.mem_cons_self a t)
    have hpred : (!(a == '?' || a == '#')) = true := by
      simp [ha.1, ha.2]
    simp only [List.cons_append, urlparsePath, List.takeWhile_cons, hpred, if_true]
    have := ih (fun c hc => h c (List.mem_cons_of_mem a hc))
    simpa [urlparsePath] using this

theorem do_GET_eq_redirect {selfPath grp : List Char}
    (h : joinMatch (urlparsePath selfPath) = some grp) :
    do_GET selfPath =
      HResponse.redirect302 (("/join.html?code=").toList ++ grp.map Char.toUpper) := by
  simp [do_GET, h]

theorem do_GET_eq_super {selfPath : List Char}
    (h : joinMatch (urlparsePath selfPath) = none) :
    do_GET selfPath = HResponse.superGET selfPath := by
  simp [do_GET, h]

theorem urlparse_join_path (x1 x2 x3 x4 x5 x6 : Char)
    (g1 : isAlnumCI x1 = true) (g2 : isAlnumCI x2 = true) (g3 : isAlnumCI x3 = true)
    (g4 : isAlnumCI x4 = true) (g5 : isAlnumCI x5 = true) (g6 : isAlnumCI x6 = true) :
    urlparsePath ('/' :: 'j' :: 'o' :: 'i' :: 'n' :: '/' :: [x1, x2, x3, x4, x5, x6]) =
      '/' :: 'j' :: 'o' :: 'i' :: 'n' :: '/' :: [x1, x2, x3, x4, x5, x6] := by
  apply urlparsePath_eq_self
  intro c hc
  simp only [List.mem_cons, List.not_mem_nil, or_false] at hc
  rcases hc with rfl | rfl | rfl | rfl | rfl | rfl | rfl | rfl | rfl | rfl | rfl | rfl
  exacts [⟨by decide, by decide⟩, ⟨by decide, by decide⟩, ⟨by decide, by decide⟩,
    ⟨by decide, by decide⟩, ⟨by decide, by decide⟩, ⟨by decide, by decide⟩,
    isAlnumCI_ne_special g1, isAlnumCI_ne_special g2, isAlnumCI_ne_special g3,
    isAlnumCI_ne_special g4, isAlnumCI_ne_special g5, isAlnumCI_ne_special g6]

theorem isValidLocation_head_append (code : List Char) (hlen : code.length = 6)
    (hall : ∀ c ∈ code, isUpperAlnum c = true) :
    isValidLocation (locationHead ++ code) = true := by
  have h16 : locationHead.length = 16 := by decide
  simp only [isValidLocation, List.take_left' h16, List.drop_left' h16, beq_self_eq_true,
    hlen, Bool.and_eq_true, List.all_eq_true, beq_iff_eq]
  refine ⟨⟨?_, ?_⟩, hall⟩ <;> trivial

/-- Claim C1: every GET request whose path component begins with `/join/`
followed by 6 alphanumeric characters is answered with HTTP 302 and a
`Location` header `/join.html?code=<CODE>`, where CODE is the extracted
6-character code uppercased, and nothing further is done with the request. -/
theorem C1_join_get_redirects (selfPath rest : List Char) (c1 c2 c3 c4 c5 c6 : Char)
    (hpath : urlparsePath selfPath =
      '/' :: 'j' :: 'o' :: 'i' :: 'n' :: '/' :: c1 :: c2 :: c3 :: c4 :: c5 :: c6 :: rest)
    (h1 : isAlnumCI c1 = true) (h2 : isAlnumCI c2 = true) (h3 : isAlnumCI c3 = true)
    (h4 : isAlnumCI c4 = true) (h5 : isAlnumCI c5 = true) (h6 : isAlnumCI c6 = true) :
    do_GET selfPath = HResponse.redirect302
      (("/join.html?code=").toList ++ [c1, c2, c3, c4, c5, c6].map Char.toUpper) := by
  apply do_GET_eq_redirect
  rw [hpath]
  exact joinMatch_eq_some_iff.mpr ⟨'j', 'o', 'i', 'n', c1, c2, c3, c4, c5, c6, rest, rfl,
    by decide, by decide, by decide, by decide, h1, h2, h3, h4, h5, h6, rfl⟩

/-- Witness for C1 at the concrete request `/join/abc123`. -/
theorem C1_witness :
    do_GET (("/join/abc123").toList) =
      HResponse.redirect302 (("/join.html?code=ABC123").toList) := by
  have h := C1_join_get_redirects (("/join/abc123").toList) [] 'a' 'b' 'c' '1' '2' '3'
    (by decide) (by decide) (by decide) (by decide) (by decide) (by decide) (by decide)
  rw [h]
  decide

/-- Claim C2, counterexample: the path `/join/ABCDEFG` (seven alphanumeric
characters) is not of the shape `/join/` + exactly six alphanumerics +
optional trailing slash claimed by the spec, yet the handler takes the
redirect branch on it, because `re.match` anchors only at the start. -/
theorem C2_counterexample :
    specJoinShape (("/join/ABCDEFG").toList) = false ∧
    do_GET (("/join/ABCDEFG").toList) =
      HResponse.redirect302 (("/join.html?code=ABCDEF").toList) := by decide

/-- Claim C2 (amended): a request takes the redirect branch if and only if
its parsed path begins with `/join/` (the `join` literal matched
case-insensitively) followed by at least six alphanumeric characters; any
suffix whatsoever may follow, not merely an optional trailing slash. -/
theorem C2_amended_redirect_iff (selfPath : List Char) :
    (∃ loc, do_GET selfPath = HResponse.redirect302 loc) ↔
    ∃ (p1 p2 p3 p4 c1 c2 c3 c4 c5 c6 : Char) (rest : List Char),
      urlparsePath selfPath =
        '/' :: p1 :: p2 :: p3 :: p4 :: '/' :: c1 :: c2 :: c3 :: c4 :: c5 :: c6 :: rest ∧
      eqCI p1 'j' = true ∧ eqCI p2 'o' = true ∧ eqCI p3 'i' = true ∧ eqCI p4 'n' = true ∧
      isAlnumCI c1 = true ∧ isAlnumCI c2 = true ∧ isAlnumCI c3 = true ∧
      isAlnumCI c4 = true ∧ isAlnumCI c5 = true ∧ isAlnumCI c6 = true := by
  constructor
  · rintro ⟨loc, h⟩
    cases hm : joinMatch (urlparsePath selfPath) with
    | none =>
      rw [do_GET_eq_super hm] at h
      exact HResponse.noConfusion h
    | some grp =>
      obtain ⟨p1, p2, p3, p4, c1, c2, c3, c4, c5, c6, rest, hpath, hj, ho, hi, hn,
        a1, a2, a3, a4, a5, a6, -⟩ := joinMatch_eq_some_iff.mp hm
      exact ⟨p1, p2, p3, p4, c1, c2, c3, c4, c5, c6, rest, hpath, hj, ho, hi, hn,
        a1, a2, a3, a4, a5, a6⟩
  · rintro ⟨p1, p2, p3, p4, c1, c2, c3, c4, c5, c6, rest, hpath, hj, ho, hi, hn,
      a1, a2, a3, a4, a5, a6⟩
    have hm : joinMatch (urlparsePath selfPath) = some [c1, c2, c3, c4, c5, c6] := by
      rw [hpath]
      exact joinMatch_eq_some_iff.mpr ⟨p1, p2, p3, p4, c1, c2, c3, c4, c5, c6, rest, rfl,
        hj, ho, hi, hn, a1, a2, a3, a4, a5, a6, rfl⟩
    exact ⟨_, do_GET_eq_redirect hm⟩

/-- Claim C3, counterexample: the spec asserts `/join/ABCDEFG` falls through
to default file serving, but the handler redirects it (to code `ABCDEF`)
rather than delegating to the superclass. -/
theorem C3_counterexample :
    do_GET (("/join/ABCDEFG").toList) =
      HResponse.redirect302 (("/join.html?code=ABCDEF").toList) ∧
    do_GET (("/join/ABCDEFG").toList) ≠
      HResponse.superGET (("/join/ABCDEFG").toList) := by decide

/-- Claim C3 (amended): every request whose parsed path does not begin with
the case-insensitive `/join/` + six-alphanumerics prefix is not redirected
and falls through to the default static serving of the library; `/join/ABC`
(shorter than six) is such a path, whereas `/join/ABCDEFG` is not — it
redirects with code `ABCDEF`. -/
theorem C3_amended_no_prefix_falls_through (selfPath : List Char)
    (h : joinMatch (urlparsePath selfPath) = none) :
    (∀ loc, do_GET selfPath ≠ HResponse.redirect302 loc) ∧
    do_GET selfPath = HResponse.superGET selfPath := by
  refine ⟨?_, do_GET_eq_super h⟩
  intro loc hloc
  rw [do_GET_eq_super h] at hloc
  exact HResponse.noConfusion hloc

/-- Witness for the amended C3 at the concrete request `/join/ABC`. -/
theorem C3_witness :
    do_GET (("/join/ABC").toList) = HResponse.superGET (("/join/ABC").toList) :=
  (C3_amended_no_prefix_falls_through (("/join/ABC").toList) (by decide)).2

/-- Claim C4: matching is case-insensitive and the emitted code is
normalized.  For any six alphanumeric characters `c1..c6` and any
case-variants `d1..d6` of them, both `/join/<c1..c6>` and `/join/<d1..d6>`
take the redirect branch and produce the identical `Location`
`/join.html?code=<CODE>` with CODE the fully-uppercased code. -/
theorem C4_case_insensitive (c1 c2 c3 c4 c5 c6 d1 d2 d3 d4 d5 d6 : Char)
    (h1 : isAlnumCI c1 = true) (h2 : isAlnumCI c2 = true) (h3 : isAlnumCI c3 = true)
    (h4 : isAlnumCI c4 = true) (h5 : isAlnumCI c5 = true) (h6 : isAlnumCI c6 = true)
    (e1 : eqCI c1 d1 = true) (e2 : eqCI c2 d2 = true) (e3 : eqCI c3 d3 = true)
    (e4 : eqCI c4 d4 = true) (e5 : eqCI c5 d5 = true) (e6 : eqCI c6 d6 = true) :
    do_GET ('/' :: 'j' :: 'o' :: 'i' :: 'n' :: '/' :: [d1, d2, d3, d4, d5, d6]) =
      HResponse.redirect302
        (("/join.html?code=").toList ++ [c1, c2, c3, c4, c5, c6].map Char.toUpper) ∧
    do_GET ('/' :: 'j' :: 'o' :: 'i' :: 'n' :: '/' :: [c1, c2, c3, c4, c5, c6]) =
      HResponse.redirect302
        (("/join.html?code=").toList ++ [c1, c2, c3, c4, c5, c6].map Char.toUpper) := by
  have l1 : c1.toLower = d1.toLower := by simpa [eqCI] using e1
  have l2 : c2.toLower = d2.toLower := by simpa [eqCI] using e2
  have l3 : c3.toLower = d3.toLower := by simpa [eqCI] using e3
  have l4 : c4.toLower = d4.toLower := by simpa [eqCI] using e4
  have l5 : c5.toLower = d5.toLower := by simpa [eqCI] using e5
  have l6 : c6.toLower = d6.toLower := by simpa [eqCI] using e6
  have g1 := isAlnumCI_of_toLower_eq l1 h1
  have g2 := isAlnumCI_of_toLower_eq l2 h2
  have g3 := isAlnumCI_of_toLower_eq l3 h3
  have g4 := isAlnumCI_of_toLower_eq l4 h4
  have g5 := isAlnumCI_of_toLower_eq l5 h5
  have g6 := isAlnumCI_of_toLower_eq l6 h6
  have u1 := toUpper_eq_of_toLower_eq l1
  have u2 := toUpper_eq_of_toLower_eq l2
  have u3 := toUpper_eq_of_toLower_eq l3
  have u4 := toUpper_eq_of_toLower_eq l4
  have u5 := toUpper_eq_of_toLower_eq l5
  have u6 := toUpper_eq_of_toLower_eq l6
  constructor
  · have hm : joinMatch (urlparsePath
        ('/' :: 'j' :: 'o' :: 'i' :: 'n' :: '/' :: [d1, d2, d3, d4, d5, d6])) =
        some [d1, d2, d3, d4, d5, d6] := by
      rw [urlparse_join_path d1 d2 d3 d4 d5 d6 g1 g2 g3 g4 g5 g6]
      exact joinMatch_eq_some_iff.mpr ⟨'j', 'o', 'i', 'n', d1, d2, d3, d4, d5, d6, [], rfl,
        by decide, by decide, by decide, by decide, g1, g2, g3, g4, g5, g6, rfl⟩
    rw [do_GET_eq_redirect hm]
    simp [u1, u2, u3, u4, u5, u6]
  · have hm : joinMatch (urlparsePath
        ('/' :: 'j' :: 'o' :: 'i' :: 'n' :: '/' :: [c1, c2, c3, c4, c5, c6])) =
        some [c1, c2, c3, c4, c5, c6] := by
      rw [urlparse_join_path c1 c2 c3 c4 c5 c6 h1 h2 h3 h4 h5 h6]
      exact joinMatch_eq_some_iff.mpr ⟨'j', 'o', 'i', 'n', c1, c2, c3, c4, c5, c6, [], rfl,
        by decide, by decide, by decide, by decide, h1, h2, h3, h4, h5, h6, rfl⟩
    exact do_GET_eq_redirect hm

/-- Witness for C4 with the code `AB12cd` and its case-variant `ab12CD`. -/
theorem C4_witness :
    do_GET ('/' :: 'j' :: 'o' :: 'i' :: 'n' :: '/' :: ['a', 'b', '1', '2', 'C', 'D']) =
      HResponse.redirect302
        (("/join.html?code=").toList ++ ['A', 'B', '1', '2', 'c', 'd'].map Char.toUpper) ∧
    do_GET ('/' :: 'j' :: 'o' :: 'i' :: 'n' :: '/' :: ['A', 'B', '1', '2', 'c', 'd']) =
      HResponse.redirect302
        (("/join.html?code=").toList ++ ['A', 'B', '1', '2', 'c', 'd'].map Char.toUpper) :=
  C4_case_insensitive 'A' 'B' '1' '2' 'c' 'd' 'a' 'b' '1' '2' 'C' 'D'
    (by decide) (by decide) (by decide) (by decide) (by decide) (by decide)
    (by decide) (by decide) (by decide) (by decide) (by decide) (by decide)

/-- Claim C5: on every request path that does not match the join pattern,
the overridden `do_GET` delegates to `SimpleHTTPRequestHandler.do_GET` with
the unchanged `self.path` — the override refines the library handler and
changes behavior only on matching paths. -/
theorem C5_refines_super (selfPath : List Char) (h : matchesJoin selfPath = false) :
    do_GET selfPath = HResponse.superGET selfPath := by
  apply do_GET_eq_super
  cases hm : joinMatch (urlparsePath selfPath) with
  | none => rfl
  | some grp =>
    rw [matchesJoin, hm] at h
    exact Bool.noConfusion h

/-- Witness for C5 at the concrete request `/index.html`. -/
theorem C5_witness :
    do_GET (("/index.html").toList) = HResponse.superGET (("/index.html").toList) :=
  C5_refines_super (("/index.html").toList) (by decide)

/-- Claim C6: HEAD requests to join URLs are handled identically to GET —
for every request whose parsed path matches the join pattern, `do_HEAD`
returns exactly what `do_GET` returns, namely the 302 redirect with the
`/join.html?code=<CODE>` Location built from the uppercased captured code. -/
theorem C6_head_join_redirect (selfPath grp : List Char)
    (h : joinMatch (urlparsePath selfPath) = some grp) :
    do_HEAD selfPath = do_GET selfPath ∧
    do_HEAD selfPath =
      HResponse.redirect302 (("/join.html?code=").toList ++ grp.map Char.toUpper) :=
  ⟨rfl, do_GET_eq_redirect h⟩

/-- Witness for C6 at the concrete request `/join/xy12ab`. -/
theorem C6_witness :
    do_HEAD (("/join/xy12ab").toList) = do_GET (("/join/xy12ab").toList) ∧
    do_HEAD (("/join/xy12ab").toList) =
      HResponse.redirect302
        (("/join.html?code=").toList ++ (['x', 'y', '1', '2', 'a', 'b'].map Char.toUpper)) :=
  C6_head_join_redirect (("/join/xy12ab").toList) ['x', 'y', '1', '2', 'a', 'b'] (by decide)

/-- Claim C7 (spec-modelled serve variant): a matching join request returns
HTTP 200 with content-type `text/html; charset=utf-8` and the contents of
the fixed template `join/index.html`, and returns HTTP 404 with a fixed
message exactly when that template is absent from the filesystem. -/
theorem C7_serve_variant (fs : List Char → Option (List Char)) (selfPath : List Char)
    (h : matchesJoin selfPath = true) :
    (∀ body, fs (("join/index.html").toList) = some body →
      do_GET_serve fs selfPath =
        ServeResponse.ok200 (("text/html; charset=utf-8").toList) body) ∧
    (fs (("join/index.html").toList) = none →
      do_GET_serve fs selfPath =
        ServeResponse.notFound404 (("File not found").toList)) ∧
    ((∃ m, do_GET_serve fs selfPath = ServeResponse.notFound404 m) ↔
      fs (("join/index.html").toList) = none) := by
  obtain ⟨grp, hm⟩ : ∃ g, joinMatch (urlparsePath selfPath) = some g := by
    rw [matchesJoin] at h
    exact Option.isSome_iff_exists.mp h
  have hstep : do_GET_serve fs selfPath =
      match fs (("join/index.html").toList) with
      | some body => ServeResponse.ok200 (("text/html; charset=utf-8").toList) body
      | none => ServeResponse.notFound404 (("File not found").toList) := by
    unfold do_GET_serve
    rw [hm]
  refine ⟨fun body hb => by rw [hstep, hb],
    fun hb => by rw [hstep, hb], ?_, fun hb => ⟨_, by rw [hstep, hb]⟩⟩
  rintro ⟨m, hmm⟩
  cases hb : fs (("join/index.html").toList) with
  | none => rfl
  | some body =>
    rw [hstep, hb] at hmm
    exact ServeResponse.noConfusion hmm

/-- Witness for C7: an empty filesystem and the request `/join/ABC123`
produce the fixed 404. -/
theorem C7_witness :
    do_GET_serve (fun _ => none) (("/join/ABC123").toList) =
      ServeResponse.notFound404 (("File not found").toList) :=
  (C7_serve_variant (fun _ => none) (("/join/ABC123").toList) (by decide)).2.1 rfl

/-- Claim C8: every `Location` value the handler ever emits, on any request
path whatsoever, is `/join.html?code=` followed by exactly six characters
from `A`–`Z`/`0`–`9` — never lowercase, never another length. -/
theorem C8_location_invariant (selfPath loc : List Char)
    (h : do_GET selfPath = HResponse.redirect302 loc) :
    isValidLocation loc = true := by
  cases hm : joinMatch (urlparsePath selfPath) with
  | none =>
    rw [do_GET_eq_super hm] at h
    exact HResponse.noConfusion h
  | some grp =>
    rw [do_GET_eq_redirect hm] at h
    have hloc : loc = ("/join.html?code=").toList ++ grp.map Char.toUpper := by
      cases h
      rfl
    obtain ⟨p1, p2, p3, p4, c1, c2, c3, c4, c5, c6, rest, -, -, -, -, -,
      a1, a2, a3, a4, a5, a6, hg⟩ := joinMatch_eq_some_iff.mp hm
    rw [hg] at hloc
    rw [hloc]
    apply isValidLocation_head_append
    · simp
    · intro c hc
      simp only [List.map_cons, List.map_nil, List.mem_cons, List.not_mem_nil, or_false] at hc
      rcases hc with rfl | rfl | rfl | rfl | rfl | rfl
      exacts [isUpperAlnum_toUpper a1, isUpperAlnum_toUpper a2, isUpperAlnum_toUpper a3,
        isUpperAlnum_toUpper a4, isUpperAlnum_toUpper a5, isUpperAlnum_toUpper a6]

/-- Witness for C8 at the request `/join/ab12cd` and its emitted Location. -/
theorem C8_witness : isValidLocation (("/join.html?code=AB12CD").toList) = true :=
  C8_location_invariant (("/join/ab12cd").toList) (("/join.html?code=AB12CD").toList)
    (by decide)

/-- Claim C9: the query string never influences the branch choice or the
redirect target — appending `?q` to any query-free, fragment-free path
leaves the branch (redirect versus default serving) and any emitted
Location value unchanged. -/
theorem C9_query_independent (p q : List Char) (h : ∀ c ∈ p, c ≠ '?' ∧ c ≠ '#') :
    responseClass (do_GET (p ++ '?' :: q)) = responseClass (do_GET p) := by
  have hq : urlparsePath (p ++ '?' :: q) = p := urlparsePath_append_query h
  have hp : urlparsePath p = p := urlparsePath_eq_self h
  simp only [do_GET, hq, hp]
  cases joinMatch p <;> rfl

/-- Witness for C9 at the request `/join/ABC123?x=1`. -/
theorem C9_witness :
    responseClass (do_GET (("/join/ABC123").toList ++ '?' :: ("x=1").toList)) =
      responseClass (do_GET (("/join/ABC123").toList)) :=
  C9_query_independent (("/join/ABC123").toList) (("x=1").toList) (by decide)

/-- Claim C10: `do_HEAD` is exactly `do_GET` on every request path — the
two handler functions are equal on all inputs, so HEAD requests for
non-join paths also produce the full default GET response. -/
theorem C10_head_eq_get : ∀ selfPath : List Char, do_HEAD selfPath = do_GET selfPath :=
  fun _ => rfl
